import Mathlib

/-!
Shallow embedding of `src/pyod/models/abod.py` (Angle-based Outlier Detector).

Real-valued numpy arithmetic is embedded over `ℚ`; the `np.nan` sentinel that
`np.var` produces on an empty list is embedded as `none : Option ℚ`.  The two
external collaborators whose sources are not part of this repository
(`pyod.utils.utility.check_parameter` and the sklearn nearest-neighbour
queries) are modelled from the spec; their doc comments say so explicitly.
-/

namespace ABODSpec

/-- A data point: a finite sequence of rational coordinates (one row of a numpy
array).  Rationals stand in for IEEE floats. -/
abbrev Point := List ℚ

/-- Elementwise vector subtraction `a - b` of two equal-length 1-D arrays. -/
def vsub (a b : Point) : Point := List.zipWith (fun x y => x - y) a b

/-- `np.dot` of two equal-length 1-D arrays. -/
def dotList (a b : Point) : ℚ := (List.zipWith (fun x y => x * y) a b).sum

/-- `np.linalg.norm(u, 2) ** 2`, the squared Euclidean norm, which over the
reals equals the dot product of `u` with itself; embedded directly as that dot
product since `ℚ` has no square root. -/
def normSq (u : Point) : ℚ := dotList u u

/-- `_wcos` from `src/pyod/models/abod.py` (lines 22-52):
`a_curr = a - curr_pt`, `b_curr = b - curr_pt`, result
`np.dot(a_curr, b_curr) / (np.linalg.norm(a_curr, 2) ** 2) / (np.linalg.norm(b_curr, 2) ** 2)`. -/
def _wcos (curr_pt a b : Point) : ℚ :=
  dotList (vsub a curr_pt) (vsub b curr_pt) /
    normSq (vsub a curr_pt) / normSq (vsub b curr_pt)

/-- `itertools.combinations(l, 2)` mapped through `g`: all pairs `(l[i], l[j])`
with `i < j`, in the order `combinations` yields them. -/
def pairsMap {α β : Type} (g : α → α → β) : List α → List β
  | [] => []
  | x :: xs => xs.map (g x) ++ pairsMap g xs

/-- One iteration of the loop body of `_calculate_wocs`: `none` when the pair is
skipped because `a` or `b` is coordinate-equal (`np.array_equal`) to `curr_pt`,
otherwise the weighted cosine appended to `wcos_list`. -/
def pairValue (curr_pt : Point) (X : List Point) (a_ind b_ind : ℕ) : Option ℚ :=
  if X.getD a_ind [] = curr_pt ∨ X.getD b_ind [] = curr_pt then none
  else some (_wcos curr_pt (X.getD a_ind []) (X.getD b_ind []))

/-- The list `wcos_list` built by the loop of `_calculate_wocs` (lines 76-87). -/
def collectedWcos (curr_pt : Point) (X : List Point) (X_ind : List ℕ) : List ℚ :=
  (pairsMap (pairValue curr_pt X) X_ind).reduceOption

/-- `np.var`: population variance (mean of squared deviations from the mean);
`np.var([])` is NaN, embedded as `none`. -/
def npVar (l : List ℚ) : Option ℚ :=
  if l.isEmpty then none
  else some ((l.map (fun x => (x - l.sum / (l.length : ℚ)) ^ 2)).sum / (l.length : ℚ))

/-- `_calculate_wocs` from `src/pyod/models/abod.py` (lines 55-88). -/
def _calculate_wocs (curr_pt : Point) (X : List Point) (X_ind : List ℕ) : Option ℚ :=
  npVar (collectedWcos curr_pt X X_ind)

/-- Squared Euclidean distance between two points. -/
def distSq (p q : Point) : ℚ := normSq (vsub p q)

/-- Whether row `j` of `X` is at least as near to `p` as row `j'`, ties broken
by index order. -/
def nearerB (X : List Point) (p : Point) (j j' : ℕ) : Bool :=
  decide (distSq p (X.getD j []) < distSq p (X.getD j' []) ∨
    (distSq p (X.getD j []) = distSq p (X.getD j' []) ∧ j ≤ j'))

/-- Modelled from the spec: the k-nearest-neighbour query used during fit
(`sklearn.neighbors.NearestNeighbors.kneighbors` called with no query array) is
an external collaborator whose source is not in this repository.  Per the spec
(§4.2, §6) it returns the `k` nearest training indices by Euclidean distance,
nearest-first, ties broken deterministically (index order); called without a
query array it treats each training point as its own query and does not return
the point's own index. -/
def kneighbors_self (X : List Point) (k : ℕ) (i : ℕ) : List ℕ :=
  (List.insertionSort (fun j j' => nearerB X (X.getD i []) j j' = true)
    ((List.range X.length).filter (fun j => j != i))).take k

/-- Modelled from the spec: `KDTree.query(X, k)` (external `sklearn` spatial
index) returns for each query point the `k` nearest training indices,
nearest-first, ties broken by index; the query points are new, so no index is
excluded. -/
def treeQuery (X : List Point) (k : ℕ) (p : Point) : List ℕ :=
  (List.insertionSort (fun j j' => nearerB X p j j' = true)
    (List.range X.length)).take k

/-- The mutable attributes of an `ABOD` instance that the claims concern.
`decision_scores_` entries are `Option ℚ`: `none` models NaN. -/
structure ABODState where
  method : String
  n_neighbors : ℕ
  X_train_ : List Point
  n_train_ : ℕ
  decision_scores_ : List (Option ℚ)
deriving DecidableEq, Repr

/-- Modelled from the spec: `check_parameter(param, low, high)` from
`pyod.utils.utility` is not under `src/`; per the spec (§4.4) restricted mode
validates `1 ≤ k ≤ n-1`, failing with a parameter-range error otherwise.  With
the call-site arguments `low = 1, high = n_train` this is `low ≤ param < high`. -/
def check_parameter (param low high : ℕ) : Bool :=
  decide (low ≤ param ∧ param < high)

/-- Exhaustive-mode neighbour set of training point `i`:
`X_ind = list(range(n)); X_ind.remove(i)` (removal of the unique occurrence). -/
def exhaustiveNeighbors (n i : ℕ) : List ℕ :=
  (List.range n).filter (fun j => j != i)

/-- Raw (pre-negation) scores written by `_fit_default` (lines 166-181). -/
def _fit_default_scores (X : List Point) : List (Option ℚ) :=
  (List.range X.length).map (fun i =>
    _calculate_wocs (X.getD i []) X (exhaustiveNeighbors X.length i))

/-- Raw (pre-negation) scores written by `_fit_fast` (lines 183-204), after
`check_parameter` passed. -/
def _fit_fast_scores (X : List Point) (k : ℕ) : List (Option ℚ) :=
  (List.range X.length).map (fun i =>
    _calculate_wocs (X.getD i []) X (kneighbors_self X k i))

/-- Negation of a score array (`* -1`), NaN staying NaN. -/
def negScores (l : List (Option ℚ)) : List (Option ℚ) :=
  l.map (Option.map (fun r => -r))

/-- `ABOD.fit` (lines 145-164).  Mirrors the Python control flow: the attribute
assignments `X_train_ = X`, `n_train_ = X.shape[0]`,
`decision_scores_ = np.zeros([n, 1])` happen before mode dispatch and before
parameter validation, and persist even when a `ValueError` is raised (first
component `some msg`); on success the raw scores are written and then flipped
(`* -1`).  `_process_decision_scores` of the external base class is outside the
modelled core. -/
def fit (st : ABODState) (X : List Point) : Option String × ABODState :=
  let st1 : ABODState :=
    { st with X_train_ := X, n_train_ := X.length,
              decision_scores_ := List.replicate X.length (some 0) }
  if st1.method = "fast" then
    if check_parameter st1.n_neighbors 1 st1.n_train_ then
      (none, { st1 with decision_scores_ := negScores (_fit_fast_scores X st1.n_neighbors) })
    else
      (some "ValueError: n_neighbors is out of range", st1)
  else if st1.method = "default" then
    (none, { st1 with decision_scores_ := negScores (_fit_default_scores X) })
  else
    (some (st1.method ++ " is not a valid method"), st1)

/-- `ABOD._decision_function_default` (lines 221-244): each new point is scored
against all `n_train_` training indices, with no self-exclusion. -/
def _decision_function_default (st : ABODState) (X : List Point) : List (Option ℚ) :=
  X.map (fun p => _calculate_wocs p st.X_train_ (List.range st.n_train_))

/-- `ABOD._decision_function_fast` (lines 246-273): each new point is scored
against its `n_neighbors` nearest training indices per the KDTree. -/
def _decision_function_fast (st : ABODState) (X : List Point) : List (Option ℚ) :=
  X.map (fun p => _calculate_wocs p st.X_train_ (treeQuery st.X_train_ st.n_neighbors p))

/-- `ABOD.decision_function` (lines 207-219); the `check_is_fitted` guard is a
precondition, not modelled as state. -/
def decision_function (st : ABODState) (X : List Point) : List (Option ℚ) :=
  if st.method = "fast" then negScores (_decision_function_fast st X)
  else negScores (_decision_function_default st X)

/-- The spec's formula (§4.1) for the weighted-cosine primitive:
`dot(u, v) / (‖u‖² · ‖v‖²)` with `u = a - p`, `v = b - p`. -/
def weightedCosine_spec (p a b : Point) : ℚ :=
  dotList (vsub a p) (vsub b p) / (normSq (vsub a p) * normSq (vsub b p))

/-- The pairs of indices that survive the degeneracy skip of `_calculate_wocs`:
all `i < j` pairs of `X_ind` whose rows are both coordinate-distinct from
`curr_pt`. -/
def retainedPairs (curr_pt : Point) (X : List Point) (X_ind : List ℕ) : List (ℕ × ℕ) :=
  (pairsMap Prod.mk X_ind).filter
    (fun ij => !decide (X.getD ij.1 [] = curr_pt ∨ X.getD ij.2 [] = curr_pt))

section Lemmas

lemma dotList_nil_left (b : Point) : dotList [] b = 0 := rfl

lemma dotList_cons_cons (x y : ℚ) (xs ys : Point) :
    dotList (x :: xs) (y :: ys) = x * y + dotList xs ys := by
  simp [dotList]

lemma dotList_comm (a b : Point) : dotList a b = dotList b a := by
  induction a generalizing b with
  | nil => cases b <;> rfl
  | cons x xs ih =>
    cases b with
    | nil => rfl
    | cons y ys => rw [dotList_cons_cons, dotList_cons_cons, mul_comm, ih]

lemma vsub_cons_cons (x y : ℚ) (xs ys : Point) :
    vsub (x :: xs) (y :: ys) = (x - y) :: vsub xs ys := rfl

lemma normSq_cons (x : ℚ) (xs : Point) :
    normSq (x :: xs) = x * x + normSq xs := dotList_cons_cons x x xs xs

lemma normSq_nonneg (u : Point) : 0 ≤ normSq u := by
  induction u with
  | nil => exact le_refl 0
  | cons x xs ih =>
    rw [normSq_cons]
    exact add_nonneg (mul_self_nonneg x) ih

/-- A sum of squares of coordinate differences vanishes only on equal vectors. -/
lemma normSq_vsub_eq_zero_iff {a b : Point} (h : a.length = b.length) :
    normSq (vsub a b) = 0 ↔ a = b := by
  induction a generalizing b with
  | nil =>
    cases b with
    | nil => simp [vsub, normSq, dotList]
    | cons y ys => simp at h
  | cons x xs ih =>
    cases b with
    | nil => simp at h
    | cons y ys =>
      rw [vsub_cons_cons, normSq_cons]
      have hxy : 0 ≤ (x - y) * (x - y) := mul_self_nonneg _
      have hxs : 0 ≤ normSq (vsub xs ys) := normSq_nonneg _
      constructor
      · intro hz
        have h1 : (x - y) * (x - y) = 0 := le_antisymm (by linarith) hxy
        have h2 : normSq (vsub xs ys) = 0 := le_antisymm (by linarith) hxs
        have hx : x = y := by
          have := mul_self_eq_zero.mp h1
          linarith [sub_eq_zero.mp this]
        have hrest : xs = ys := (ih (by simpa using h)).mp h2
        rw [hx, hrest]
      · intro he
        injection he with h1 h2
        subst h1
        subst h2
        simp [(ih rfl).mpr rfl]

lemma normSq_vsub_ne_zero {a b : Point} (h : a.length = b.length) (hne : a ≠ b) :
    normSq (vsub a b) ≠ 0 :=
  fun hz => hne ((normSq_vsub_eq_zero_iff h).mp hz)

lemma wcos_comm (p a b : Point) : _wcos p a b = _wcos p b a := by
  unfold _wcos
  rw [dotList_comm, div_div, div_div, mul_comm]

lemma npVar_nil : npVar [] = none := rfl

lemma npVar_singleton (x : ℚ) : npVar [x] = some 0 := by
  simp [npVar]

lemma npVar_perm {l l' : List ℚ} (h : l.Perm l') : npVar l = npVar l' := by
  have hlen : l.length = l'.length := h.length_eq
  have hsum : l.sum = l'.sum := h.sum_eq
  have hemp : l.isEmpty = l'.isEmpty := by
    cases l with
    | nil =>
      cases l' with
      | nil => rfl
      | cons y ys => simp at hlen
    | cons x xs =>
      cases l' with
      | nil => simp at hlen
      | cons y ys => rfl
  unfold npVar
  rw [hemp, hlen, hsum]
  by_cases he : l'.isEmpty
  · simp [he]
  · simp only [he, if_false]
    rw [List.Perm.sum_eq
      (List.Perm.map (fun x => (x - l'.sum / (l'.length : ℚ)) ^ 2) h)]

lemma pairsMap_cons {α β : Type} (g : α → α → β) (x : α) (xs : List α) :
    pairsMap g (x :: xs) = xs.map (g x) ++ pairsMap g xs := rfl

lemma pairsMap_perm {α β : Type} (g : α → α → β) (hg : ∀ a b, g a b = g b a)
    {l₁ l₂ : List α} (h : l₁.Perm l₂) : (pairsMap g l₁).Perm (pairsMap g l₂) := by
  induction h with
  | nil => exact List.Perm.refl _
  | cons x h ih => exact List.Perm.append (h.map (g x)) ih
  | swap x y l =>
    simp only [pairsMap_cons, List.map_cons, List.cons_append]
    rw [hg y x]
    refine List.Perm.cons _ ?_
    have h1 : ((l.map (g y) ++ l.map (g x)) ++ pairsMap g l).Perm
        ((l.map (g x) ++ l.map (g y)) ++ pairsMap g l) :=
      List.Perm.append_right _ List.perm_append_comm
    rw [List.append_assoc, List.append_assoc] at h1
    exact h1
  | trans h₁ h₂ ih₁ ih₂ => exact ih₁.trans ih₂

lemma pairValue_comm (p : Point) (X : List Point) (i j : ℕ) :
    pairValue p X i j = pairValue p X j i := by
  unfold pairValue
  by_cases h : X.getD i [] = p ∨ X.getD j [] = p
  · rw [if_pos h, if_pos (Or.symm h)]
  · rw [if_neg h, if_neg (fun hc => h (Or.symm hc)), wcos_comm]

lemma collectedWcos_perm (p : Point) (X : List Point) {l l' : List ℕ}
    (h : l.Perm l') : (collectedWcos p X l).Perm (collectedWcos p X l') := by
  unfold collectedWcos
  simp only [List.reduceOption]
  exact List.Perm.filterMap id (pairsMap_perm _ (pairValue_comm p X) h)

lemma calculate_wocs_perm (p : Point) (X : List Point) {l l' : List ℕ}
    (h : l.Perm l') : _calculate_wocs p X l = _calculate_wocs p X l' :=
  npVar_perm (collectedWcos_perm p X h)

lemma pairsMap_of_short {α β : Type} (g : α → α → β) {l : List α}
    (h : l.length ≤ 1) : pairsMap g l = [] := by
  cases l with
  | nil => rfl
  | cons x xs =>
    cases xs with
    | nil => rfl
    | cons y ys => simp at h

lemma pairsMap_eq_map_pairs {α β : Type} (g : α → α → β) (l : List α) :
    pairsMap g l = (pairsMap Prod.mk l).map (fun ij => g ij.1 ij.2) := by
  induction l with
  | nil => rfl
  | cons x xs ih =>
    simp only [pairsMap_cons, List.map_append, List.map_map, ih]
    rfl

lemma mem_pairsMap_mk {α : Type} {l : List α} {i j : α}
    (h : (i, j) ∈ pairsMap Prod.mk l) : i ∈ l ∧ j ∈ l := by
  induction l with
  | nil => cases h
  | cons x xs ih =>
    rw [pairsMap_cons] at h
    rcases List.mem_append.mp h with h1 | h2
    · rcases List.mem_map.mp h1 with ⟨y, hy, he⟩
      obtain ⟨e1, e2⟩ := Prod.mk.injEq .. ▸ he
      subst e1
      subst e2
      exact ⟨List.mem_cons_self _ _, List.mem_cons_of_mem _ hy⟩
    · obtain ⟨h2a, h2b⟩ := ih h2
      exact ⟨List.mem_cons_of_mem _ h2a, List.mem_cons_of_mem _ h2b⟩

lemma reduceOption_map_ite {γ : Type} (l : List γ) (c : γ → Prop)
    [DecidablePred c] (v : γ → ℚ) :
    (l.map (fun x => if c x then none else some (v x))).reduceOption
      = (l.filter (fun x => !decide (c x))).map v := by
  induction l with
  | nil => rfl
  | cons x xs ih =>
    by_cases h : c x
    · simp [h, ih]
    · simp [h, ih]

lemma length_filter_ne (n i : ℕ) (h : i < n) :
    ((List.range n).filter (fun j => j != i)).length = n - 1 := by
  induction n with
  | zero => omega
  | succ m ih =>
    rw [List.range_succ, List.filter_append]
    by_cases hi : i = m
    · subst hi
      have h1 : (List.range i).filter (fun j => j != i) = List.range i :=
        List.filter_eq_self.mpr (fun j hj => by
          simp [Nat.ne_of_lt (List.mem_range.mp hj)])
      simp [h1]
    · have him : i < m := by omega
      have h2 : [m].filter (fun j => j != i) = [m] := by
        simp [List.filter_cons]
        omega
      rw [h2, List.length_append, ih him]
      simp
      omega

lemma length_kneighbors_self (X : List Point) (k i : ℕ) (hi : i < X.length) :
    (kneighbors_self X k i).length = min k (X.length - 1) := by
  unfold kneighbors_self
  rw [List.length_take, List.length_insertionSort, length_filter_ne _ _ hi]

lemma kneighbors_self_full_perm (X : List Point) (i : ℕ) (hi : i < X.length) :
    (kneighbors_self X (X.length - 1) i).Perm (exhaustiveNeighbors X.length i) := by
  unfold kneighbors_self exhaustiveNeighbors
  have hlen : (List.insertionSort (fun j j' => nearerB X (X.getD i []) j j' = true)
      ((List.range X.length).filter (fun j => j != i))).length = X.length - 1 := by
    rw [List.length_insertionSort, length_filter_ne _ _ hi]
  rw [← hlen, List.take_length]
  exact List.perm_insertionSort _ _

lemma fit_fast_eq (st : ABODState) (X : List Point) (hm : st.method = "fast")
    (hk : check_parameter st.n_neighbors 1 X.length = true) :
    fit st X = (none,
      { st with
          X_train_ := X, n_train_ := X.length,
          decision_scores_ := negScores (_fit_fast_scores X st.n_neighbors) }) := by
  unfold fit
  simp [hm, hk]

lemma fit_fast_err (st : ABODState) (X : List Point) (hm : st.method = "fast")
    (hk : check_parameter st.n_neighbors 1 X.length = false) :
    fit st X = (some "ValueError: n_neighbors is out of range",
      { st with
          X_train_ := X, n_train_ := X.length,
          decision_scores_ := List.replicate X.length (some 0) }) := by
  unfold fit
  simp [hm, hk]

lemma fit_default_eq (st : ABODState) (X : List Point)
    (hm : st.method = "default") :
    fit st X = (none,
      { st with
          X_train_ := X, n_train_ := X.length,
          decision_scores_ := negScores (_fit_default_scores X) }) := by
  unfold fit
  simp [hm]

lemma fit_invalid_method (st : ABODState) (X : List Point)
    (hf : st.method ≠ "fast") (hd : st.method ≠ "default") :
    fit st X = (some (st.method ++ " is not a valid method"),
      { st with
          X_train_ := X, n_train_ := X.length,
          decision_scores_ := List.replicate X.length (some 0) }) := by
  unfold fit
  simp [hf, hd]

lemma getD_map_range (f : ℕ → Option ℚ) (n i : ℕ) (hi : i < n) :
    ((List.range n).map f).getD i none = f i := by
  rw [List.getD_eq_getElem _ _ (by simpa using hi), List.getElem_map,
    List.getElem_range]

lemma getD_map_points (f : Point → Option ℚ) (Y : List Point) (j : ℕ)
    (hj : j < Y.length) :
    (Y.map f).getD j none = f (Y.getD j []) := by
  rw [List.getD_eq_getElem _ _ (by simpa using hj), List.getElem_map,
    List.getD_eq_getElem _ _ hj]

lemma getD_negScores (l : List (Option ℚ)) (i : ℕ) (hi : i < l.length) :
    (negScores l).getD i none = Option.map (fun r => -r) (l.getD i none) := by
  unfold negScores
  rw [List.getD_eq_getElem _ _ (by simpa using hi), List.getElem_map,
    List.getD_eq_getElem _ _ hi]

end Lemmas

/-- C1: for points of equal dimension with `a` and `b` distinct from `p`, the
weighted-cosine primitive returns `dot(a-p, b-p)` divided by the product of the
squared Euclidean norms of `a-p` and `b-p` (the spec's formula, not the product
of the plain norms). -/
theorem wcos_matches_spec_formula (p a b : Point)
    (ha : a.length = p.length) (hb : b.length = p.length)
    (hap : a ≠ p) (hbp : b ≠ p) :
    _wcos p a b = weightedCosine_spec p a b := by
  unfold _wcos weightedCosine_spec
  rw [div_div]

/-- Witness for C1 at `p = [0]`, `a = [1]`, `b = [2]`. -/
theorem wcos_matches_spec_formula_witness :
    _wcos [(0 : ℚ)] [1] [2] = weightedCosine_spec [(0 : ℚ)] [1] [2] :=
  wcos_matches_spec_formula [0] [1] [2] rfl rfl (by decide) (by decide)

/-- C9: the weighted-cosine primitive is symmetric in its last two arguments
for non-degenerate inputs. -/
theorem wcos_symmetric (p a b : Point) (hap : a ≠ p) (hbp : b ≠ p) :
    _wcos p a b = _wcos p b a := wcos_comm p a b

/-- Witness for C9 at `p = [0]`, `a = [1]`, `b = [2]`. -/
theorem wcos_symmetric_witness :
    _wcos [(0 : ℚ)] [1] [2] = _wcos [(0 : ℚ)] [2] [1] :=
  wcos_symmetric [0] [1] [2] (by decide) (by decide)

/-- C2 (amended): when zero weighted-cosine values are collected,
`_calculate_wocs` returns the NaN sentinel (`np.var([])` is NaN, embedded as
`none`); when exactly one value is collected it returns the population variance
`0` of a singleton, not the NaN sentinel. -/
theorem calculate_wocs_degenerate (p : Point) (X : List Point) (X_ind : List ℕ) :
    (collectedWcos p X X_ind = [] → _calculate_wocs p X X_ind = none) ∧
    (∀ x : ℚ, collectedWcos p X X_ind = [x] → _calculate_wocs p X X_ind = some 0) := by
  constructor
  · intro h
    unfold _calculate_wocs
    rw [h]
    exact npVar_nil
  · intro x h
    unfold _calculate_wocs
    rw [h]
    exact npVar_singleton x

/-- Witness for C2 (amended): zero collected values (index set `[0]`) gives the
NaN sentinel; one collected value (index set `[0, 1]`) gives variance `0`. -/
theorem calculate_wocs_degenerate_witness :
    _calculate_wocs [(0 : ℚ)] [[1], [2]] [0] = none ∧
    _calculate_wocs [(0 : ℚ)] [[1], [2]] [0, 1] = some 0 :=
  ⟨(calculate_wocs_degenerate [0] [[1], [2]] [0]).1 rfl,
   (calculate_wocs_degenerate [0] [[1], [2]] [0, 1]).2 (_wcos [0] [1] [2]) rfl⟩

/-- C2 counterexample: with query `[0]`, training rows `[1]`, `[2]` and index
set `[0, 1]`, exactly one weighted-cosine value is collected, yet
`_calculate_wocs` returns the variance `0` rather than the NaN sentinel the
claim requires for a single collected value. -/
theorem calculate_wocs_single_value_not_nan :
    (collectedWcos [(0 : ℚ)] [[1], [2]] [0, 1]).length = 1 ∧
    _calculate_wocs [(0 : ℚ)] [[1], [2]] [0, 1] = some 0 ∧
    _calculate_wocs [(0 : ℚ)] [[1], [2]] [0, 1] ≠ none := by
  have h : _calculate_wocs [(0 : ℚ)] [[1], [2]] [0, 1] = some 0 := by
    norm_num [_calculate_wocs, collectedWcos, pairsMap, pairValue, _wcos,
      npVar, vsub, normSq, dotList]
  exact ⟨rfl, h, by rw [h]; exact Option.some_ne_none 0⟩

/-- C10: a pair whose two members are coordinate-equal to each other but
distinct from the query point is not skipped: when rows `i` and `j` are both
the point `a ≠ p`, the pair `(i, j)` is retained and contributes the value
`1 / ‖a - p‖²` to the collected weighted-cosine list. -/
theorem duplicate_pair_retained (p a : Point) (X : List Point) (i j : ℕ)
    (rest : List ℕ) (hi : X.getD i [] = a) (hj : X.getD j [] = a)
    (hne : a ≠ p) (hlen : a.length = p.length) :
    ∃ t, collectedWcos p X (i :: j :: rest) = (1 / normSq (vsub a p)) :: t := by
  have hnz : normSq (vsub a p) ≠ 0 := normSq_vsub_ne_zero hlen hne
  have hv : pairValue p X i j = some (1 / normSq (vsub a p)) := by
    unfold pairValue
    rw [hi, hj, if_neg (by simp [hne])]
    congr 1
    show dotList (vsub a p) (vsub a p) / normSq (vsub a p) / normSq (vsub a p)
        = 1 / normSq (vsub a p)
    rw [show dotList (vsub a p) (vsub a p) = normSq (vsub a p) from rfl,
      div_self hnz]
  refine ⟨(rest.map (pairValue p X i) ++ pairsMap (pairValue p X) (j :: rest)).reduceOption, ?_⟩
  unfold collectedWcos
  rw [pairsMap_cons, List.map_cons, List.cons_append, hv,
    List.reduceOption_cons_of_some]

/-- Witness for C10: duplicated rows `[1, 1]` at indices 0 and 1, query
`[0, 0]`; the collected list starts with `1 / ‖(1,1)‖² = 1/2`. -/
theorem duplicate_pair_retained_witness :
    ∃ t, collectedWcos [(0 : ℚ), 0] [[1, 1], [1, 1]] [0, 1] = (1 / 2 : ℚ) :: t := by
  have h := duplicate_pair_retained [(0 : ℚ), 0] [(1 : ℚ), 1] [[1, 1], [1, 1]]
    0 1 [] rfl rfl (by decide) rfl
  have h2 : normSq (vsub [(1 : ℚ), 1] [(0 : ℚ), 0]) = 2 := by
    norm_num [normSq, vsub, dotList]
  rw [h2] at h
  exact h

/-- C6: in `_calculate_wocs` every pair in which `a` or `b` is coordinate-equal
to the query point is skipped before `_wcos` is invoked — the collected list is
exactly `_wcos` mapped over the retained pairs — and for every retained pair
both displacement vectors have nonzero squared norm, so the division inside
`_wcos` is well-defined (the division-by-zero branch is unreachable). -/
theorem degenerate_pairs_skipped (p : Point) (X : List Point) (X_ind : List ℕ)
    (hdim : ∀ q ∈ X, q.length = p.length) (hind : ∀ i ∈ X_ind, i < X.length) :
    collectedWcos p X X_ind
      = (retainedPairs p X X_ind).map
          (fun ij => _wcos p (X.getD ij.1 []) (X.getD ij.2 [])) ∧
    ∀ ij ∈ retainedPairs p X X_ind,
      normSq (vsub (X.getD ij.1 []) p) ≠ 0 ∧
      normSq (vsub (X.getD ij.2 []) p) ≠ 0 := by
  constructor
  · unfold collectedWcos retainedPairs
    rw [pairsMap_eq_map_pairs]
    simp only [pairValue]
    exact reduceOption_map_ite (pairsMap Prod.mk X_ind)
      (fun ij => X.getD ij.1 [] = p ∨ X.getD ij.2 [] = p)
      (fun ij => _wcos p (X.getD ij.1 []) (X.getD ij.2 []))
  · intro ij hij
    obtain ⟨i, j⟩ := ij
    unfold retainedPairs at hij
    obtain ⟨hmem, hkeep⟩ := List.mem_filter.mp hij
    have hne : ¬(X.getD i [] = p ∨ X.getD j [] = p) := by
      simpa using hkeep
    obtain ⟨hi, hj⟩ := mem_pairsMap_mk hmem
    have hilt := hind i hi
    have hjlt := hind j hj
    have hia : X.getD i [] ∈ X := by
      rw [List.getD_eq_getElem _ _ hilt]
      exact List.getElem_mem hilt
    have hja : X.getD j [] ∈ X := by
      rw [List.getD_eq_getElem _ _ hjlt]
      exact List.getElem_mem hjlt
    exact ⟨normSq_vsub_ne_zero (hdim _ hia) (fun he => hne (Or.inl he)),
      normSq_vsub_ne_zero (hdim _ hja) (fun he => hne (Or.inr he))⟩

/-- Witness for C6 at `p = [0]`, `X = [[1], [2]]`, `X_ind = [0, 1]`. -/
theorem degenerate_pairs_skipped_witness :
    (collectedWcos [(0 : ℚ)] [[1], [2]] [0, 1]
      = (retainedPairs [(0 : ℚ)] [[1], [2]] [0, 1]).map
          (fun ij => _wcos [(0 : ℚ)]
            ([[(1 : ℚ)], [2]].getD ij.1 []) ([[(1 : ℚ)], [2]].getD ij.2 []))) ∧
    ∀ ij ∈ retainedPairs [(0 : ℚ)] [[1], [2]] [0, 1],
      normSq (vsub ([[(1 : ℚ)], [2]].getD ij.1 []) [(0 : ℚ)]) ≠ 0 ∧
      normSq (vsub ([[(1 : ℚ)], [2]].getD ij.2 []) [(0 : ℚ)]) ≠ 0 :=
  degenerate_pairs_skipped [(0 : ℚ)] [[1], [2]] [0, 1]
    (by
      intro q hq
      simp only [List.mem_cons, List.not_mem_nil, or_false] at hq
      rcases hq with h | h <;> subst h <;> rfl)
    (by
      intro i hi
      simp only [List.mem_cons, List.not_mem_nil, or_false] at hi
      rcases hi with h | h <;> subst h <;> norm_num)

/-- C7: during fit the neighbour set of training point `i` never contains `i`
itself: the exhaustive-mode set is all indices with `i` filtered out, and the
restricted-mode k-nearest query (which never returns the query's own index)
yields a subset of the non-`i` indices. -/
theorem self_excluded_from_neighbors (X : List Point) (n k i : ℕ) :
    i ∉ exhaustiveNeighbors n i ∧ i ∉ kneighbors_self X k i := by
  constructor
  · intro h
    have := (List.mem_filter.mp h).2
    simp at this
  · intro h
    unfold kneighbors_self at h
    have h1 := (List.take_sublist _ _).mem h
    have h2 := (List.perm_insertionSort _ _).mem_iff.mp h1
    have := (List.mem_filter.mp h2).2
    simp at this

/-- C3: in fast (restricted) mode `fit` raises a parameter-range error exactly
when `k` lies outside `[1, n_train - 1]`; with `k = 1` (and at least two
training points) fit succeeds, each point's neighbour set has size 1, so zero
pairs form and every published score is the NaN sentinel, with no error
escaping `fit`. -/
theorem fast_fit_parameter_range (st : ABODState) (X : List Point)
    (hm : st.method = "fast") :
    ((fit st X).1 ≠ none ↔
      ¬(1 ≤ st.n_neighbors ∧ st.n_neighbors ≤ X.length - 1)) ∧
    (st.n_neighbors = 1 → 2 ≤ X.length →
      (fit st X).1 = none ∧
      (∀ i, i < X.length → (kneighbors_self X st.n_neighbors i).length = 1) ∧
      (fit st X).2.decision_scores_ = List.replicate X.length none) := by
  have hrange : check_parameter st.n_neighbors 1 X.length = true ↔
      (1 ≤ st.n_neighbors ∧ st.n_neighbors ≤ X.length - 1) := by
    unfold check_parameter
    simp only [decide_eq_true_eq]
    omega
  constructor
  · by_cases hk : check_parameter st.n_neighbors 1 X.length = true
    · rw [fit_fast_eq st X hm hk]
      simp [hrange.mp hk]
    · have hnr : ¬(1 ≤ st.n_neighbors ∧ st.n_neighbors ≤ X.length - 1) :=
        fun hc => hk (hrange.mpr hc)
      rw [fit_fast_err st X hm (by simpa using hk)]
      simp [hnr]
  · intro hk1 hn
    have hk : check_parameter st.n_neighbors 1 X.length = true := by
      unfold check_parameter
      simp only [decide_eq_true_eq]
      omega
    rw [fit_fast_eq st X hm hk]
    refine ⟨rfl, ?_, ?_⟩
    · intro i hi
      rw [hk1, length_kneighbors_self X 1 i hi]
      omega
    · show negScores (_fit_fast_scores X st.n_neighbors)
        = List.replicate X.length none
      rw [hk1]
      unfold _fit_fast_scores negScores
      rw [List.map_map]
      refine List.eq_replicate_iff.mpr ⟨by simp, ?_⟩
      intro b hb
      rcases List.mem_map.mp hb with ⟨i, hi, he⟩
      have hilt : i < X.length := List.mem_range.mp hi
      have hlen1 : (kneighbors_self X 1 i).length ≤ 1 := by
        rw [length_kneighbors_self X 1 i hilt]
        omega
      have hnone : _calculate_wocs (X.getD i []) X (kneighbors_self X 1 i)
          = none := by
        unfold _calculate_wocs collectedWcos
        rw [pairsMap_of_short _ hlen1]
        exact npVar_nil
      rw [← he, Function.comp_apply, hnone]
      rfl

/-- Witness for C3: `k = 1` on three 1-D training points fits without error and
publishes the NaN sentinel for every point; `k = 3 = n_train` errors. -/
theorem fast_fit_parameter_range_witness :
    (fit ⟨"fast", 1, [], 0, []⟩ [[0], [1], [2]]).1 = none ∧
    (fit ⟨"fast", 1, [], 0, []⟩ [[0], [1], [2]]).2.decision_scores_
      = List.replicate 3 none ∧
    (fit ⟨"fast", 3, [], 0, []⟩ [[0], [1], [2]]).1 ≠ none := by
  have h := (fast_fit_parameter_range ⟨"fast", 1, [], 0, []⟩ [[0], [1], [2]]
    rfl).2 rfl (by norm_num)
  have h3 := (fast_fit_parameter_range ⟨"fast", 3, [], 0, []⟩ [[0], [1], [2]]
    rfl).1
  exact ⟨h.1, h.2.2, h3.mpr (by norm_num)⟩

/-- C4 counterexample: re-fitting an already-fitted detector (prior state
`X_train_ = [[5]]`, `decision_scores_ = [some (-1)]`) with out-of-range
`k = 0` raises the parameter error, yet the prior fitted attributes are
overwritten, not left untouched. -/
theorem fit_error_clobbers_prior_state :
    ((fit ⟨"fast", 0, [[5]], 1, [some (-1)]⟩ [[1], [2], [3]]).1 ≠ none) ∧
    (fit ⟨"fast", 0, [[5]], 1, [some (-1)]⟩ [[1], [2], [3]]).2.X_train_
      ≠ [[5]] ∧
    (fit ⟨"fast", 0, [[5]], 1, [some (-1)]⟩ [[1], [2], [3]]).2.decision_scores_
      ≠ [some (-1)] := by
  rw [fit_fast_err ⟨"fast", 0, [[5]], 1, [some (-1)]⟩ [[1], [2], [3]] rfl rfl]
  refine ⟨by simp, ?_, ?_⟩
  · show [[(1 : ℚ)], [2], [3]] ≠ [[5]]
    norm_num
  · show List.replicate 3 (some (0 : ℚ)) ≠ [some (-1)]
    norm_num [List.replicate]

/-- C4 (amended): when `fit` fails with a parameter error (invalid mode string,
or `k` out of range in fast mode), the error is raised before any score
computation — `decision_scores_` still holds the zeros placeholder — but the
attributes `X_train_`, `n_train_` and `decision_scores_` have already been
reassigned, so prior fitted state in those attributes is clobbered rather than
left untouched. -/
theorem fit_error_before_scoring (st : ABODState) (X : List Point) :
    (st.method = "fast" → check_parameter st.n_neighbors 1 X.length = false →
      (fit st X).1 ≠ none ∧
      (fit st X).2 = { st with
        X_train_ := X, n_train_ := X.length,
        decision_scores_ := List.replicate X.length (some 0) }) ∧
    (st.method ≠ "fast" → st.method ≠ "default" →
      (fit st X).1 ≠ none ∧
      (fit st X).2 = { st with
        X_train_ := X, n_train_ := X.length,
        decision_scores_ := List.replicate X.length (some 0) }) := by
  constructor
  · intro hm hk
    rw [fit_fast_err st X hm hk]
    exact ⟨by simp, rfl⟩
  · intro hf hd
    rw [fit_invalid_method st X hf hd]
    exact ⟨by simp, rfl⟩

/-- Witness for C4 (amended): a `k = 0` fast-mode fit and an invalid-mode fit,
both on concrete data, error out with the mutated-but-unscored state. -/
theorem fit_error_before_scoring_witness :
    ((fit ⟨"fast", 0, [[5]], 1, [some (-1)]⟩ [[1], [2]]).1 ≠ none ∧
      (fit ⟨"fast", 0, [[5]], 1, [some (-1)]⟩ [[1], [2]]).2
        = ⟨"fast", 0, [[1], [2]], 2, [some 0, some 0]⟩) ∧
    ((fit ⟨"weird", 3, [], 0, []⟩ [[7]]).1 ≠ none ∧
      (fit ⟨"weird", 3, [], 0, []⟩ [[7]]).2 = ⟨"weird", 3, [[7]], 1, [some 0]⟩) := by
  have h1 := (fit_error_before_scoring ⟨"fast", 0, [[5]], 1, [some (-1)]⟩
    [[1], [2]]).1 rfl rfl
  have h2 := (fit_error_before_scoring ⟨"weird", 3, [], 0, []⟩ [[7]]).2
    (by decide) (by decide)
  exact ⟨⟨h1.1, by rw [h1.2]; rfl⟩, ⟨h2.1, by rw [h2.2]; rfl⟩⟩

/-- C8: every published anomaly score is the negation of the raw angle-variance
value: after a successful fit (either mode) `decision_scores_[i]` is minus the
raw variance of training point `i`, and `decision_function` returns minus the
raw variance of each new point against the stored training set (mode-dependent
neighbour choice), NaN staying NaN. -/
theorem published_scores_negate_raw (st : ABODState) (X Y : List Point) :
    (∀ i, i < X.length →
      (st.method = "default" →
        (fit st X).2.decision_scores_.getD i none
          = Option.map (fun r => -r)
              (_calculate_wocs (X.getD i []) X
                (exhaustiveNeighbors X.length i))) ∧
      (st.method = "fast" → check_parameter st.n_neighbors 1 X.length = true →
        (fit st X).2.decision_scores_.getD i none
          = Option.map (fun r => -r)
              (_calculate_wocs (X.getD i []) X
                (kneighbors_self X st.n_neighbors i)))) ∧
    (∀ j, j < Y.length →
      (decision_function st Y).getD j none
        = Option.map (fun r => -r)
            (_calculate_wocs (Y.getD j []) st.X_train_
              (if st.method = "fast"
               then treeQuery st.X_train_ st.n_neighbors (Y.getD j [])
               else List.range st.n_train_))) := by
  constructor
  · intro i hi
    constructor
    · intro hm
      rw [fit_default_eq st X hm]
      show (negScores (_fit_default_scores X)).getD i none = _
      rw [getD_negScores _ _ (by simp [_fit_default_scores]; omega)]
      unfold _fit_default_scores
      rw [getD_map_range _ _ _ hi]
    · intro hm hk
      rw [fit_fast_eq st X hm hk]
      show (negScores (_fit_fast_scores X st.n_neighbors)).getD i none = _
      rw [getD_negScores _ _ (by simp [_fit_fast_scores]; omega)]
      unfold _fit_fast_scores
      rw [getD_map_range _ _ _ hi]
  · intro j hj
    unfold decision_function
    by_cases hm : st.method = "fast"
    · rw [if_pos hm, if_pos hm]
      unfold _decision_function_fast negScores
      rw [List.map_map, getD_map_points _ _ _ hj]
      rfl
    · rw [if_neg hm, if_neg hm]
      unfold _decision_function_default negScores
      rw [List.map_map, getD_map_points _ _ _ hj]
      rfl

/-- Witness for C8: default-mode fit on two points, and `decision_function` of
a fitted default-mode detector at one new point. -/
theorem published_scores_negate_raw_witness :
    ((fit ⟨"default", 5, [], 0, []⟩ [[0], [1]]).2.decision_scores_.getD 0 none
      = Option.map (fun r => -r)
          (_calculate_wocs ([[(0 : ℚ)], [1]].getD 0 []) [[(0 : ℚ)], [1]]
            (exhaustiveNeighbors [[(0 : ℚ)], [1]].length 0))) ∧
    ((decision_function ⟨"default", 5, [[0], [1]], 2, [some 0, some 0]⟩
        [[3]]).getD 0 none
      = Option.map (fun r => -r)
          (_calculate_wocs ([[(3 : ℚ)]].getD 0 []) [[(0 : ℚ)], [1]]
            (List.range 2))) := by
  have h1 := ((published_scores_negate_raw ⟨"default", 5, [], 0, []⟩
    [[0], [1]] []).1 0 (by norm_num)).1 rfl
  have h2 := (published_scores_negate_raw
    ⟨"default", 5, [[0], [1]], 2, [some 0, some 0]⟩ [] [[3]]).2 0 (by norm_num)
  refine ⟨h1, ?_⟩
  rw [h2]
  rfl

/-- C5 (amended): fitting in fast (restricted) mode with `k = n_train - 1`
produces exactly the same per-point training scores as fitting in default
(exhaustive) mode; subsequent `decision_function` scoring of new points does
NOT in general match, because fast-mode scoring queries only the `k` nearest
training points to the new point while default mode uses all `n_train`. -/
theorem fast_full_k_matches_default_fit (stF stD : ABODState) (X : List Point)
    (hF : stF.method = "fast") (hD : stD.method = "default")
    (hk : stF.n_neighbors = X.length - 1) (hn : 2 ≤ X.length) :
    (fit stF X).1 = none ∧ (fit stD X).1 = none ∧
    (fit stF X).2.decision_scores_ = (fit stD X).2.decision_scores_ := by
  have hck : check_parameter stF.n_neighbors 1 X.length = true := by
    unfold check_parameter
    rw [hk]
    simp only [decide_eq_true_eq]
    omega
  rw [fit_fast_eq stF X hF hck, fit_default_eq stD X hD]
  refine ⟨rfl, rfl, ?_⟩
  show negScores (_fit_fast_scores X stF.n_neighbors)
      = negScores (_fit_default_scores X)
  congr 1
  unfold _fit_fast_scores _fit_default_scores
  apply List.map_congr_left
  intro i hi
  rw [hk]
  exact calculate_wocs_perm _ _
    (kneighbors_self_full_perm X i (List.mem_range.mp hi))

/-- Witness for C5 (amended): three 1-D training points, `k = 2 = n - 1`. -/
theorem fast_full_k_matches_default_fit_witness :
    (fit ⟨"fast", 2, [], 0, []⟩ [[0], [1], [2]]).1 = none ∧
    (fit ⟨"default", 2, [], 0, []⟩ [[0], [1], [2]]).1 = none ∧
    (fit ⟨"fast", 2, [], 0, []⟩ [[0], [1], [2]]).2.decision_scores_
      = (fit ⟨"default", 2, [], 0, []⟩ [[0], [1], [2]]).2.decision_scores_ :=
  fast_full_k_matches_default_fit ⟨"fast", 2, [], 0, []⟩
    ⟨"default", 2, [], 0, []⟩ [[0], [1], [2]] rfl rfl rfl (by norm_num)

/-- C5 counterexample: after fitting three 1-D training points `0, 1, 2` with
`k = 2 = n_train - 1`, scoring the new point `4` gives `-0` in fast mode (only
the 2 nearest training points `2, 1` form one pair, variance `0`) but
`-1/864` in default mode (all 3 training points form three pairs), so
subsequent scoring does not match exhaustive mode. -/
theorem fast_full_k_decision_function_differs :
    decision_function (fit ⟨"fast", 2, [], 0, []⟩ [[0], [1], [2]]).2 [[4]]
      ≠ decision_function (fit ⟨"default", 2, [], 0, []⟩ [[0], [1], [2]]).2
          [[4]] := by
  norm_num [fit, check_parameter, decision_function, negScores,
    _decision_function_fast, _decision_function_default, treeQuery, nearerB,
    distSq, normSq, vsub, dotList, List.insertionSort, List.orderedInsert,
    _calculate_wocs, collectedWcos, pairsMap, pairValue, _wcos, npVar,
    _fit_fast_scores, _fit_default_scores, kneighbors_self,
    exhaustiveNeighbors, List.range_succ]
  rw [if_neg (show ¬("default" = "fast") by decide),
    if_neg (List.cons_ne_nil _ _)]
  norm_num

end ABODSpec
